import Mathlib

/-!
Shallow embedding of `src/kri_calculator.py` (class `CreditRiskKRI`).

Conventions of the embedding:
* pandas DataFrames become Lean lists of records; monetary amounts and
  rates become `ℚ` (exact arithmetic in place of IEEE doubles);
* an unguarded float division (`num / den` in numpy/pandas, which yields
  NaN or ±inf when `den = 0`, never an exception, since the module runs
  with warnings suppressed) is embedded as `Option ℚ`: `none` stands for
  the non-finite result produced when the denominator is zero;
* Python comparisons `nan < x`, `nan > x` are `False`; the helpers
  `pyLt` / `pyGt` reproduce that on `Option ℚ`;
* the five Vietnamese classification labels
  `Nhóm 1 - Bình thường` … `Nhóm 5 - Tổn thất` are embedded as the
  constructors `c1` … `c5`; since the categorical vocabularies are open,
  an out-of-vocabulary label is `other tag`;
* categorical dimensions (`customer_segment`, `province`, `industry`,
  `loan_type`, `vintage`) and `loan_id` / `snapshot_date` are embedded
  as `ℕ` codes — only equality, grouping and (for dates) ordering are
  ever used on them;
* `df.groupby(k)` is embedded as the list of distinct keys (pandas sorts
  plain keys ascending; where the code re-sorts explicitly afterwards we
  keep the deduplicated key list and apply that explicit sort) with, per
  key, the sublist of matching rows in order.
-/

/-- The `loan_classification` column: the fixed ordered 5-value enumeration
(`c1` = `Nhóm 1 - Bình thường`, …, `c5` = `Nhóm 5 - Tổn thất`), plus
`other` for an out-of-vocabulary label. -/
inductive Classification where
  | c1 | c2 | c3 | c4 | c5
  | other (tag : ℕ)
deriving DecidableEq

/-- The `class_order` / `all_classes` constant of `kri_calculator.py`:
the five classes in severity order. -/
def all_classes : List Classification :=
  [.c1, .c2, .c3, .c4, .c5]

/-- Position of a class in `class_order`; out-of-vocabulary labels map to 5,
mirroring `sort_values` placing the NaN sort key last. -/
def classIndex : Classification → ℕ
  | .c1 => 0 | .c2 => 1 | .c3 => 2 | .c4 => 3 | .c5 => 4
  | .other _ => 5

/-- One row of the portfolio DataFrame (the columns the calculator reads). -/
structure Loan where
  loan_id : ℕ
  customer_segment : ℕ
  province : ℕ
  industry : ℕ
  loan_type : ℕ
  months_on_book : ℚ
  original_amount_vnd_mil : ℚ
  outstanding_balance_vnd_mil : ℚ
  interest_rate_pct : ℚ
  days_past_due : ℕ
  loan_classification : Classification
  vintage : ℕ
deriving DecidableEq

/-- One row of the historical (time-series) DataFrame; only the three
columns `calculate_migration_matrix` touches. -/
structure HistRecord where
  loan_id : ℕ
  snapshot_date : ℕ
  loan_classification : Classification
deriving DecidableEq

/-- Unguarded float division: `none` is the NaN/±inf a numpy division by
zero produces (warnings are suppressed in the source module). -/
def fdiv (num den : ℚ) : Option ℚ :=
  if den = 0 then none else some (num / den)

/-- Embeds `num / den * 100`, unguarded (`Option` as in `fdiv`). -/
def pctOf (num den : ℚ) : Option ℚ :=
  (fdiv num den).map (fun q => q * 100)

/-- Python `x < y` where `x` may be NaN/±inf from a zero division:
NaN comparisons are `False`. -/
def pyLt (x : Option ℚ) (y : ℚ) : Bool :=
  match x with
  | none => false
  | some v => decide (v < y)

/-- Python `x > y` where `x` may be NaN/±inf from a zero division. -/
def pyGt (x : Option ℚ) (y : ℚ) : Bool :=
  match x with
  | none => false
  | some v => decide (y < v)

/-- Addition on float values that may be NaN: one NaN poisons the result. -/
def oadd : Option ℚ → Option ℚ → Option ℚ
  | some v, some s => some (v + s)
  | _, _ => none

/-- Python `sum` over values that may be NaN: one NaN poisons the sum. -/
def osum (l : List (Option ℚ)) : Option ℚ :=
  l.foldr oadd (some 0)

/-- The guarded grouped ratio `num / den * 100 if den > 0 else 0` used by
every per-group lambda in the source. -/
def guardedPct (num den : ℚ) : ℚ :=
  if 0 < den then num / den * 100 else 0

/-- Embeds `df['outstanding_balance_vnd_mil'].sum()`. -/
def sumBal (df : List Loan) : ℚ :=
  (df.map (·.outstanding_balance_vnd_mil)).sum

/-- Distinct group keys of `df.groupby(keyOf)` (deduplicated key column). -/
def groupKeys {β : Type} [DecidableEq β] (keyOf : Loan → β) (df : List Loan) :
    List β :=
  (df.map keyOf).dedup

/-- The rows of one group: `df[keyOf == k]`. -/
def groupRows {β : Type} [DecidableEq β] (keyOf : Loan → β) (df : List Loan)
    (k : β) : List Loan :=
  df.filter (fun l => decide (keyOf l = k))

/-- The NPL mask of `calculate_npl_metrics`:
`isin(['Nhóm 4 - Nghi ngờ', 'Nhóm 5 - Tổn thất']) | (days_past_due >= 90)`. -/
def nplMask (l : Loan) : Bool :=
  decide (l.loan_classification = Classification.c4 ∨
    l.loan_classification = Classification.c5 ∨
    90 ≤ l.days_past_due)

/-- The classification-only NPL test
`isin(['Nhóm 4 - Nghi ngờ', 'Nhóm 5 - Tổn thất'])` used by every grouped
breakdown lambda (no `days_past_due` term there). -/
def nplClassOnly (l : Loan) : Bool :=
  decide (l.loan_classification = Classification.c4 ∨
    l.loan_classification = Classification.c5)

/-- The 6 fixed thresholds set in `CreditRiskKRI.__init__`. -/
structure RiskAppetite where
  npl_ratio_max : ℚ
  par30_ratio_max : ℚ
  par90_ratio_max : ℚ
  single_borrower_max : ℚ
  industry_concentration_max : ℚ
  province_concentration_max : ℚ
deriving DecidableEq

/-- The literal thresholds from `__init__` (VPBank policy block). -/
def defaultRiskAppetite : RiskAppetite :=
  { npl_ratio_max := 3
    par30_ratio_max := 5
    par90_ratio_max := 7/2
    single_borrower_max := 15
    industry_concentration_max := 25
    province_concentration_max := 40 }

/-- The engine state: `self.df` (a copy of the constructor argument) and
`self.risk_appetite`.  `self.current_date` is set in `__init__` but never
read by any calculation, so it is omitted. -/
structure CreditRiskKRI where
  df : List Loan
  risk_appetite : RiskAppetite
deriving DecidableEq

/-- Embeds `CreditRiskKRI.__init__`: stores `df.copy()` (a value copy) and the
fixed thresholds. -/
def CreditRiskKRI.init (df : List Loan) : CreditRiskKRI :=
  { df := df, risk_appetite := defaultRiskAppetite }

/-- One row of the four NPL breakdown tables (`by_segment`, `by_product`,
`by_industry`, `by_province`). -/
structure NPLGroupRow where
  key : ℕ
  total_balance : ℚ
  npl_balance : ℚ
  npl_ratio : ℚ
deriving DecidableEq

/-- The per-group lambda shared by the four NPL breakdowns: total balance,
classification-only NPL balance, and the guarded ratio. -/
def nplGroupRow (keyOf : Loan → ℕ) (df : List Loan) (k : ℕ) : NPLGroupRow :=
  let g := groupRows keyOf df k
  let tb := sumBal g
  let nb := sumBal (g.filter nplClassOnly)
  { key := k, total_balance := tb, npl_balance := nb,
    npl_ratio := guardedPct nb tb }

/-- A full NPL breakdown table: `groupby(keyOf).apply(lambda …)`, group
keys ascending (pandas default sort). -/
def nplBreakdown (keyOf : Loan → ℕ) (df : List Loan) : List NPLGroupRow :=
  (List.insertionSort (· ≤ ·) (groupKeys keyOf df)).map (nplGroupRow keyOf df)

/-- The `calculate_npl_metrics` result dictionary. -/
structure NPLMetrics where
  npl_count : ℕ
  npl_count_ratio : Option ℚ
  npl_balance : ℚ
  npl_balance_ratio : Option ℚ
  total_loans : ℕ
  total_balance : ℚ
  within_risk_appetite : Bool
  risk_appetite_limit : ℚ
  risk_appetite_utilization : Option ℚ
  by_segment : List NPLGroupRow
  by_product : List NPLGroupRow
  by_industry : List NPLGroupRow
  by_province : List NPLGroupRow
deriving DecidableEq

/-- Embeds `CreditRiskKRI.calculate_npl_metrics`. -/
def calculate_npl_metrics (e : CreditRiskKRI) : NPLMetrics :=
  let df := e.df
  let total_loans := df.length
  let total_balance := sumBal df
  let npl_loans := df.countP nplMask
  let npl_balance := sumBal (df.filter nplMask)
  { npl_count := npl_loans
    npl_count_ratio := pctOf (npl_loans : ℚ) (total_loans : ℚ)
    npl_balance := npl_balance
    npl_balance_ratio := pctOf npl_balance total_balance
    total_loans := total_loans
    total_balance := total_balance
    within_risk_appetite :=
      pyLt (pctOf npl_balance total_balance) e.risk_appetite.npl_ratio_max
    risk_appetite_limit := e.risk_appetite.npl_ratio_max
    risk_appetite_utilization :=
      (pctOf npl_balance total_balance).map
        (fun r => r / e.risk_appetite.npl_ratio_max * 100)
    by_segment := nplBreakdown (·.customer_segment) df
    by_product := nplBreakdown (·.loan_type) df
    by_industry := nplBreakdown (·.industry) df
    by_province := nplBreakdown (·.province) df }


/-- A PAR bucket without a risk-appetite comparison (`par60`, `par180`). -/
structure PARBucket where
  balance : ℚ
  ratio : Option ℚ
  count : ℕ
deriving DecidableEq

/-- A PAR bucket with a risk-appetite comparison (`par30`, `par90`). -/
structure PARBucketRA where
  balance : ℚ
  ratio : Option ℚ
  count : ℕ
  within_risk_appetite : Bool
  risk_appetite_limit : ℚ
deriving DecidableEq

/-- One row of the PAR `by_segment` table. -/
structure PARSegmentRow where
  customer_segment : ℕ
  par30_ratio : ℚ
  par90_ratio : ℚ
deriving DecidableEq

/-- The `calculate_par_metrics` result dictionary. -/
structure PARMetrics where
  par30 : PARBucketRA
  par60 : PARBucket
  par90 : PARBucketRA
  par180 : PARBucket
  by_segment : List PARSegmentRow
deriving DecidableEq

/-- The mask `days_past_due >= bucket`. -/
def parMask (bucket : ℕ) (l : Loan) : Bool :=
  decide (bucket ≤ l.days_past_due)

/-- Balance of loans with `days_past_due >= bucket`. -/
def parBalance (bucket : ℕ) (df : List Loan) : ℚ :=
  sumBal (df.filter (parMask bucket))

/-- Embeds `CreditRiskKRI.calculate_par_metrics`. -/
def calculate_par_metrics (e : CreditRiskKRI) : PARMetrics :=
  let df := e.df
  let total_balance := sumBal df
  let p30 := parBalance 30 df
  let p60 := parBalance 60 df
  let p90 := parBalance 90 df
  let p180 := parBalance 180 df
  { par30 :=
      { balance := p30, ratio := pctOf p30 total_balance
        count := df.countP (parMask 30)
        within_risk_appetite :=
          pyLt (pctOf p30 total_balance) e.risk_appetite.par30_ratio_max
        risk_appetite_limit := e.risk_appetite.par30_ratio_max }
    par60 :=
      { balance := p60, ratio := pctOf p60 total_balance
        count := df.countP (parMask 60) }
    par90 :=
      { balance := p90, ratio := pctOf p90 total_balance
        count := df.countP (parMask 90)
        within_risk_appetite :=
          pyLt (pctOf p90 total_balance) e.risk_appetite.par90_ratio_max
        risk_appetite_limit := e.risk_appetite.par90_ratio_max }
    par180 :=
      { balance := p180, ratio := pctOf p180 total_balance
        count := df.countP (parMask 180) }
    by_segment :=
      (List.insertionSort (· ≤ ·) (groupKeys (·.customer_segment) df)).map
        (fun k =>
          let g := groupRows (·.customer_segment) df k
          { customer_segment := k
            par30_ratio := guardedPct (parBalance 30 g) (sumBal g)
            par90_ratio := guardedPct (parBalance 90 g) (sumBal g) }) }

/-- One row of the `quality_distribution` table. -/
structure QualityRow where
  classification : Classification
  count : ℕ
  balance : ℚ
  count_pct : Option ℚ
  balance_pct : Option ℚ
deriving DecidableEq

/-- The final `sort_values('sort_order')` relation of
`calculate_quality_distribution`: ascending `classIndex`, out-of-vocabulary
keys (whose mapped sort key is NaN) last. -/
def qualityOrder (a b : QualityRow) : Prop :=
  classIndex a.classification ≤ classIndex b.classification

instance : DecidableRel qualityOrder := fun a b =>
  inferInstanceAs (Decidable (classIndex a.classification ≤ classIndex b.classification))

instance : IsTotal QualityRow qualityOrder :=
  ⟨fun x y => Nat.le_total (classIndex x.classification) (classIndex y.classification)⟩

instance : IsTrans QualityRow qualityOrder :=
  ⟨fun _ _ _ h1 h2 => Nat.le_trans h1 h2⟩

/-- The grouped `agg` of `calculate_quality_distribution`: per observed
classification, the `loan_id` count and balance sum of its group. -/
def qualityTriples (df : List Loan) : List (Classification × ℕ × ℚ) :=
  (groupKeys (fun l => l.loan_classification) df).map (fun k =>
    (k, (groupRows (fun l => l.loan_classification) df k).length,
      sumBal (groupRows (fun l => l.loan_classification) df k)))

/-- Embeds `distribution['count'].sum()` — the denominator of `count_pct`. -/
def qualityCountSum (df : List Loan) : ℚ :=
  ((qualityTriples df).map (fun r => (r.2.1 : ℚ))).sum

/-- Embeds `distribution['balance'].sum()` — the denominator of `balance_pct`. -/
def qualityBalanceSum (df : List Loan) : ℚ :=
  ((qualityTriples df).map (fun r => r.2.2)).sum

/-- Embeds `CreditRiskKRI.calculate_quality_distribution`: group by
`loan_classification` (count of `loan_id`, sum of balance), add the two
percentage columns (each divided by its own column sum — an unguarded
float division), then sort by the severity index with unknown classes
last. -/
def calculate_quality_distribution (e : CreditRiskKRI) : List QualityRow :=
  List.insertionSort qualityOrder
    ((qualityTriples e.df).map (fun r =>
      { classification := r.1
        count := r.2.1
        balance := r.2.2
        count_pct := pctOf (r.2.1 : ℚ) (qualityCountSum e.df)
        balance_pct := pctOf r.2.2 (qualityBalanceSum e.df) }))

/-- Grouped balance shares of one categorical axis, in descending order of
group balance (`sort_values(ascending=False)`), as pairs
`(category, balance)`. -/
def concentrationSorted (keyOf : Loan → ℕ) (df : List Loan) : List (ℕ × ℚ) :=
  List.insertionSort (fun a b => b.2 ≤ a.2)
    ((groupKeys keyOf df).map (fun k => (k, sumBal (groupRows keyOf df k))))

/-- The `…_conc_pct` series: each group balance over total balance × 100
(unguarded float division), in the descending-balance order. -/
def concentrationShares (keyOf : Loan → ℕ) (df : List Loan) :
    List (ℕ × Option ℚ) :=
  (concentrationSorted keyOf df).map (fun p => (p.1, pctOf p.2 (sumBal df)))

/-- Embeds `(conc_pct ** 2).sum()`: the Herfindahl–Hirschman index of one axis. -/
def hhiOf (shares : List (ℕ × Option ℚ)) : Option ℚ :=
  osum (shares.map (fun p => p.2.map (fun q => q * q)))

/-- Embeds `'High' if hhi > 2500 else 'Moderate' if hhi > 1500 else 'Low'`
(a NaN HHI compares `False` on both, yielding `"Low"`). -/
def concLevel (hhi : Option ℚ) : String :=
  if pyGt hhi 2500 then "High" else if pyGt hhi 1500 then "Moderate" else "Low"

/-- Embeds `iloc[0]` of the share series (raises on an empty frame; `none` also
stands for a NaN share). -/
def topShare (shares : List (ℕ × Option ℚ)) : Option ℚ :=
  match shares with
  | [] => none
  | s :: _ => s.2

/-- Embeds `iloc[:3].sum()` of the share series. -/
def top3Total (shares : List (ℕ × Option ℚ)) : Option ℚ :=
  osum ((shares.take 3).map (·.2))

/-- The industry/province entries of `calculate_concentration_risk`
(`top_industry` / `top_province` both embedded as `top_share`). -/
structure ConcentrationAxis where
  top_share : Option ℚ
  top_3_total : Option ℚ
  hhi : Option ℚ
  concentration_level : String
  within_risk_appetite : Bool
  details : List (ℕ × Option ℚ)
deriving DecidableEq

/-- The product/segment entries (share breakdown only). -/
structure ConcentrationShareOnly where
  details : List (ℕ × Option ℚ)
deriving DecidableEq

/-- The `calculate_concentration_risk` result dictionary. -/
structure ConcentrationRisk where
  industry : ConcentrationAxis
  province : ConcentrationAxis
  product : ConcentrationShareOnly
  segment : ConcentrationShareOnly
deriving DecidableEq

/-- One axis with threshold check of `calculate_concentration_risk`. -/
def concentrationAxis (keyOf : Loan → ℕ) (maxShare : ℚ) (df : List Loan) :
    ConcentrationAxis :=
  let shares := concentrationShares keyOf df
  { top_share := topShare shares
    top_3_total := top3Total shares
    hhi := hhiOf shares
    concentration_level := concLevel (hhiOf shares)
    within_risk_appetite := pyLt (topShare shares) maxShare
    details := shares }

/-- Embeds `CreditRiskKRI.calculate_concentration_risk`. -/
def calculate_concentration_risk (e : CreditRiskKRI) : ConcentrationRisk :=
  { industry :=
      concentrationAxis (·.industry)
        e.risk_appetite.industry_concentration_max e.df
    province :=
      concentrationAxis (·.province)
        e.risk_appetite.province_concentration_max e.df
    product := { details := concentrationShares (·.loan_type) e.df }
    segment := { details := concentrationShares (·.customer_segment) e.df } }

/-- One row of the `vintage_analysis` table. -/
structure VintageRow where
  vintage : ℕ
  total_loans : ℕ
  total_balance : ℚ
  npl_count : ℕ
  npl_balance : ℚ
  npl_ratio : ℚ
  avg_dpd : Option ℚ
deriving DecidableEq

/-- Embeds `CreditRiskKRI.calculate_vintage_analysis`: per-vintage lambda with the
classification-only NPL test and the guarded ratio. -/
def calculate_vintage_analysis (e : CreditRiskKRI) : List VintageRow :=
  (List.insertionSort (· ≤ ·) (groupKeys (·.vintage) e.df)).map (fun k =>
    let g := groupRows (·.vintage) e.df k
    { vintage := k
      total_loans := g.length
      total_balance := sumBal g
      npl_count := (g.filter nplClassOnly).length
      npl_balance := sumBal (g.filter nplClassOnly)
      npl_ratio := guardedPct (sumBal (g.filter nplClassOnly)) (sumBal g)
      avg_dpd := fdiv ((g.map (fun l => (l.days_past_due : ℚ))).sum) g.length })

/-- One row of the `segment_performance` table. -/
structure SegmentPerfRow where
  customer_segment : ℕ
  total_loans : ℕ
  total_balance : ℚ
  avg_loan_size : Option ℚ
  avg_interest_rate : Option ℚ
  npl_count : ℕ
  npl_ratio : ℚ
  par30_ratio : ℚ
  avg_dpd : Option ℚ
  avg_months_on_book : Option ℚ
deriving DecidableEq

/-- Embeds `CreditRiskKRI.calculate_segment_performance`. -/
def calculate_segment_performance (e : CreditRiskKRI) : List SegmentPerfRow :=
  (List.insertionSort (· ≤ ·) (groupKeys (·.customer_segment) e.df)).map
    (fun k =>
      let g := groupRows (·.customer_segment) e.df k
      { customer_segment := k
        total_loans := g.length
        total_balance := sumBal g
        avg_loan_size := fdiv (sumBal g) g.length
        avg_interest_rate := fdiv ((g.map (·.interest_rate_pct)).sum) g.length
        npl_count := (g.filter nplClassOnly).length
        npl_ratio := guardedPct (sumBal (g.filter nplClassOnly)) (sumBal g)
        par30_ratio := guardedPct (parBalance 30 g) (sumBal g)
        avg_dpd := fdiv ((g.map (fun l => (l.days_past_due : ℚ))).sum) g.length
        avg_months_on_book := fdiv ((g.map (·.months_on_book)).sum) g.length })

/-- One early-warning signal (count / balance / ratio of total balance). -/
structure EWSignal where
  count : ℕ
  balance : ℚ
  ratio : Option ℚ
deriving DecidableEq

/-- The `calculate_early_warning_indicators` result dictionary. -/
structure EarlyWarning where
  early_delinquency : EWSignal
  watch_list : EWSignal
  new_loans_issues : EWSignal
deriving DecidableEq

/-- Embeds `(days_past_due > 0) & (days_past_due < 30)`. -/
def earlyDelinquencyMask (l : Loan) : Bool :=
  decide (0 < l.days_past_due ∧ l.days_past_due < 30)

/-- Embeds `loan_classification == 'Nhóm 2 - Cần chú ý'`. -/
def watchListMask (l : Loan) : Bool :=
  decide (l.loan_classification = Classification.c2)

/-- Embeds `(months_on_book < 6) & (days_past_due > 0)`. -/
def newLoansIssuesMask (l : Loan) : Bool :=
  decide (l.months_on_book < 6 ∧ 0 < l.days_past_due)

/-- Embeds `CreditRiskKRI.calculate_early_warning_indicators`. -/
def calculate_early_warning_indicators (e : CreditRiskKRI) : EarlyWarning :=
  let df := e.df
  let total_balance := sumBal df
  let signal := fun (mask : Loan → Bool) =>
    { count := df.countP mask
      balance := sumBal (df.filter mask)
      ratio := pctOf (sumBal (df.filter mask)) total_balance : EWSignal }
  { early_delinquency := signal earlyDelinquencyMask
    watch_list := signal watchListMask
    new_loans_issues := signal newLoansIssuesMask }

/-- The KRI result tree returned by `calculate_all_kris` (its fixed keys
become the fields). -/
structure KRIs where
  npl_metrics : NPLMetrics
  par_metrics : PARMetrics
  quality_distribution : List QualityRow
  concentration_risk : ConcentrationRisk
  vintage_analysis : List VintageRow
  segment_performance : List SegmentPerfRow
  early_warning : EarlyWarning
deriving DecidableEq

/-- Embeds `CreditRiskKRI.calculate_all_kris`. -/
def calculate_all_kris (e : CreditRiskKRI) : KRIs :=
  { npl_metrics := calculate_npl_metrics e
    par_metrics := calculate_par_metrics e
    quality_distribution := calculate_quality_distribution e
    concentration_risk := calculate_concentration_risk e
    vintage_analysis := calculate_vintage_analysis e
    segment_performance := calculate_segment_performance e
    early_warning := calculate_early_warning_indicators e }

/-- A Python method call as a state transformer: every `calculate_*`
method of `CreditRiskKRI` only reads `self`, so the state after the call
is the state before it. -/
def calculate_all_kris_method (e : CreditRiskKRI) : KRIs × CreditRiskKRI :=
  (calculate_all_kris e, e)

/-- Embeds `sorted(df_historical['snapshot_date'].unique(), reverse=True)`. -/
def snapshotsDesc (hist : List HistRecord) : List ℕ :=
  List.insertionSort (fun a b => b ≤ a)
    ((hist.map (·.snapshot_date)).dedup)

/-- Embeds `df_historical[df_historical['snapshot_date'] == d][['loan_id',
'loan_classification']]`. -/
def snapshotRows (hist : List HistRecord) (d : ℕ) :
    List (ℕ × Classification) :=
  (hist.filter (fun r => decide (r.snapshot_date = d))).map
    (fun r => (r.loan_id, r.loan_classification))

/-- Embeds `pd.merge(df_previous, df_current, on='loan_id', how='inner')`: one
output row `(loan_id, previous_class, current_class)` per matching pair. -/
def transitionsOf (hist : List HistRecord) (prevDate curDate : ℕ) :
    List (ℕ × Classification × Classification) :=
  (snapshotRows hist prevDate).flatMap (fun p =>
    ((snapshotRows hist curDate).filter (fun c => decide (c.1 = p.1))).map
      (fun c => (p.1, p.2, c.2)))

/-- The distinct `previous_class` values observed (the crosstab index
before reindexing). -/
def observedPrev (ts : List (ℕ × Classification × Classification)) :
    List Classification :=
  (ts.map (·.2.1)).dedup

/-- One cell of `pd.crosstab(previous, current, normalize='index') * 100`:
transitions `r → c` over all transitions out of `r`, × 100. -/
def crosstabCell (ts : List (ℕ × Classification × Classification))
    (r c : Classification) : ℚ :=
  ((ts.countP (fun t => decide (t.2.1 = r ∧ t.2.2 = c)) : ℚ) /
    (ts.countP (fun t => decide (t.2.1 = r)) : ℚ)) * 100

/-- One cell of the final reindexed matrix: the crosstab value when class
`r` was observed as a previous class, else the `0` the padding loop
(`migration_matrix.loc[cls] = 0` and `migration_matrix[cls] = 0`)
inserted.  A column `c` never observed also yields `0` through
`crosstabCell` (its transition count is zero). -/
def migCell (ts : List (ℕ × Classification × Classification))
    (r c : Classification) : ℚ :=
  if r ∈ observedPrev ts then crosstabCell ts r c else 0

/-- The final matrix after `migration_matrix.loc[all_classes, all_classes]`:
both axes are exactly `all_classes`, in severity order. -/
def matrixOf (ts : List (ℕ × Classification × Classification)) :
    List (Classification × List (Classification × ℚ)) :=
  all_classes.map (fun r => (r, all_classes.map (fun c => (c, migCell ts r c))))

/-- Embeds `CreditRiskKRI.calculate_migration_matrix`: `None` when fewer than two
distinct snapshot dates exist; otherwise the reindexed row-normalized
crosstab of the two most recent snapshots. -/
def calculate_migration_matrix (hist : List HistRecord) :
    Option (List (Classification × List (Classification × ℚ))) :=
  match snapshotsDesc hist with
  | current_snapshot :: previous_snapshot :: _ =>
    some (matrixOf (transitionsOf hist previous_snapshot current_snapshot))
  | _ => none

/-- A reference heap of DataFrame objects, for the aliasing claim:
`mem i` is the object stored at reference `i`; references `< next` are
allocated, `next` is fresh. -/
structure Heap where
  mem : ℕ → List Loan
  next : ℕ

/-- Writing through a caller-held reference (`df.loc[…] = …`,
`df.drop(…, inplace=True)`, rebinding the same object — any mutation of
the object at `r`). -/
def heapWrite (h : Heap) (r : ℕ) (v : List Loan) : Heap :=
  { mem := fun i => if i = r then v else h.mem i, next := h.next }

/-- Embeds `CreditRiskKRI(df)` against the heap: `self.df = df.copy()` allocates
a fresh object holding a value copy of the object the caller's reference
`r` points to, and the engine retains only the fresh reference. -/
def constructOnHeap (h : Heap) (r : ℕ) : ℕ × Heap :=
  (h.next,
   { mem := fun i => if i = h.next then h.mem r else h.mem i
     next := h.next + 1 })

/-- Running `calculate_all_kris` on an engine whose `self.df` lives at
`dfRef` in the heap. -/
def runAllKris (h : Heap) (dfRef : ℕ) : KRIs :=
  calculate_all_kris { df := h.mem dfRef, risk_appetite := defaultRiskAppetite }

section CountingLemmas

variable {α : Type} {β : Type} {M : Type} [DecidableEq β] [AddCommMonoid M]

/-- Summing a measure over a filter by a disjunction of disjoint tests
splits into the two filters. -/
theorem sum_map_filter_or (w : α → M) (p q : α → Bool)
    (hdisj : ∀ x, ¬(p x = true ∧ q x = true)) :
    ∀ l : List α,
      ((l.filter (fun x => p x || q x)).map w).sum
        = ((l.filter p).map w).sum + ((l.filter q).map w).sum := by
  intro l
  induction l with
  | nil => simp
  | cons x xs ih =>
    cases hp : p x with
    | true =>
      have hq : q x = false := by
        cases hq : q x with
        | true => exact absurd ⟨hp, hq⟩ (hdisj x)
        | false => rfl
      simp [List.filter_cons, hp, hq, ih, add_assoc]
    | false =>
      cases hq : q x with
      | true => simp [List.filter_cons, hp, hq, ih, add_left_comm, add_assoc]
      | false => simp [List.filter_cons, hp, hq, ih]

/-- Summing a measure group-by-group over a duplicate-free key list equals
summing it over the rows whose key lies in that list. -/
theorem sum_map_filter_key (keyOf : α → β) (w : α → M) :
    ∀ keys : List β, keys.Nodup → ∀ l : List α,
      (keys.map (fun k =>
          ((l.filter (fun x => decide (keyOf x = k))).map w).sum)).sum
        = ((l.filter (fun x => decide (keyOf x ∈ keys))).map w).sum := by
  intro keys
  induction keys with
  | nil => intro _ l; simp
  | cons k ks ih =>
    intro hnd l
    have hknotin : k ∉ ks := (List.nodup_cons.mp hnd).1
    have hndks : ks.Nodup := (List.nodup_cons.mp hnd).2
    have hdisj : ∀ x, ¬(decide (keyOf x = k) = true ∧
        decide (keyOf x ∈ ks) = true) := by
      intro x ⟨h1, h2⟩
      exact hknotin (by
        have e1 : keyOf x = k := of_decide_eq_true h1
        have e2 : keyOf x ∈ ks := of_decide_eq_true h2
        rwa [e1] at e2)
    have hsplit := sum_map_filter_or w (fun x => decide (keyOf x = k))
      (fun x => decide (keyOf x ∈ ks)) hdisj l
    have hcongr : l.filter (fun x => decide (keyOf x ∈ k :: ks))
        = l.filter (fun x => decide (keyOf x = k) || decide (keyOf x ∈ ks)) := by
      apply List.filter_congr
      intro x _
      simp [List.mem_cons]
    simp only [List.map_cons, List.sum_cons, ih hndks l, hcongr, hsplit]

end CountingLemmas

/-- The constant-one measure turns a summed filter into its length. -/
theorem sum_map_one_eq_length {α : Type} :
    ∀ l : List α, (l.map (fun _ => (1 : ℚ))).sum = (l.length : ℚ) := by
  intro l
  induction l with
  | nil => simp
  | cons x xs ih => simp [ih]; ring

/-- Counting group-by-group over a duplicate-free key list equals counting
the rows whose key lies in that list (rational-valued lengths). -/
theorem length_filter_key {α β : Type} [DecidableEq β]
    (keyOf : α → β) (keys : List β) (hnd : keys.Nodup) (l : List α) :
    (keys.map (fun k =>
        ((l.filter (fun x => decide (keyOf x = k))).length : ℚ))).sum
      = ((l.filter (fun x => decide (keyOf x ∈ keys))).length : ℚ) := by
  have h := sum_map_filter_key keyOf (fun _ => (1 : ℚ)) keys hnd l
  calc (keys.map (fun k =>
          ((l.filter (fun x => decide (keyOf x = k))).length : ℚ))).sum
      = (keys.map (fun k =>
          ((l.filter (fun x => decide (keyOf x = k))).map
            (fun _ => (1 : ℚ))).sum)).sum := by
        apply congrArg
        apply List.map_congr_left
        intro k _
        rw [sum_map_one_eq_length]
    _ = ((l.filter (fun x => decide (keyOf x ∈ keys))).map
          (fun _ => (1 : ℚ))).sum := h
    _ = _ := sum_map_one_eq_length _

/-- Evaluating `osum` over a list of defined values is the defined sum. -/
theorem osum_map_some {α : Type} (g : α → ℚ) :
    ∀ l : List α, osum (l.map (fun x => some (g x))) = some ((l.map g).sum) := by
  intro l
  induction l with
  | nil => simp [osum]
  | cons x xs ih => simp [osum, oadd] at ih ⊢; simp [ih]

/-- Dividing each term by `S` and scaling by 100 commutes with the sum. -/
theorem sum_map_div_mul (S : ℚ) :
    ∀ l : List ℚ, ((l.map (fun x => x / S * 100)).sum) = l.sum / S * 100 := by
  intro l
  induction l with
  | nil => simp
  | cons x xs ih => simp [ih]; ring

/-- The operation `oadd` is left-commutative, so `osum` is permutation-invariant. -/
theorem oadd_left_comm (x y s : Option ℚ) :
    oadd x (oadd y s) = oadd y (oadd x s) := by
  rcases x with _ | xv <;> rcases y with _ | yv <;> rcases s with _ | sv <;>
    simp [oadd] <;> ring

/-- The sum `osum` is invariant under permutation of the summands. -/
theorem osum_perm : ∀ {l l' : List (Option ℚ)}, l.Perm l' → osum l = osum l' := by
  intro l l' h
  induction h with
  | nil => rfl
  | cons x _ ih => simp only [osum, List.foldr_cons] at ih ⊢; rw [ih]
  | swap x y l => simp only [osum, List.foldr_cons]; exact oadd_left_comm y x _
  | trans _ _ ih1 ih2 => exact ih1.trans ih2

/-- A list of percentages of a common nonzero denominator `S` whose
numerators sum to `S` has `osum` exactly 100. -/
theorem osum_pct_list (cs : List ℚ) (S : ℚ) (hS : S ≠ 0) (hsum : cs.sum = S) :
    osum (cs.map (fun c => pctOf c S)) = some 100 := by
  have hmap : cs.map (fun c => pctOf c S)
      = cs.map (fun c => some (c / S * 100)) := by
    apply List.map_congr_left
    intro c _
    simp [pctOf, fdiv, hS]
  rw [hmap, osum_map_some (fun c => c / S * 100) cs, sum_map_div_mul S cs,
    hsum, div_self hS]
  norm_num

/-- Concrete loans for scenarios: a benign current loan; scenario loans
override individual fields. -/
def baseLoan : Loan :=
  { loan_id := 0, customer_segment := 0, province := 0, industry := 0,
    loan_type := 0, months_on_book := 12, original_amount_vnd_mil := 1000,
    outstanding_balance_vnd_mil := 500, interest_rate_pct := 10,
    days_past_due := 0, loan_classification := .c1, vintage := 0 }

/-- The §8 scenario portfolio: balances 100 and 300, classes 1 and 5. -/
def scenario2Loans : List Loan :=
  [{ baseLoan with loan_id := 1, outstanding_balance_vnd_mil := 100 },
   { baseLoan with loan_id := 2, outstanding_balance_vnd_mil := 300,
                   loan_classification := .c5 }]

/-- A portfolio whose one loan has zero outstanding balance. -/
def zeroBalLoan : Loan :=
  { baseLoan with outstanding_balance_vnd_mil := 0 }

/-- A loan that is NPL by days-past-due alone (classification `c1`). -/
def dpdOnlyLoan : Loan :=
  { baseLoan with days_past_due := 120,
                  outstanding_balance_vnd_mil := 100 }

/-- A zero-guard for the shared per-group breakdown lambda: a group with
zero total balance yields ratio 0. -/
theorem nplBreakdown_zero_guard (keyOf : Loan → ℕ) (df : List Loan) :
    ∀ row ∈ nplBreakdown keyOf df, row.total_balance = 0 → row.npl_ratio = 0 := by
  intro row hrow h0
  rcases List.mem_map.mp hrow with ⟨k, _, rfl⟩
  simp only [nplGroupRow] at h0 ⊢
  simp [guardedPct, h0]

/-- Each breakdown row's NPL balance uses the classification-only test. -/
theorem nplBreakdown_class_only (keyOf : Loan → ℕ) (df : List Loan) :
    ∀ row ∈ nplBreakdown keyOf df,
      row.npl_balance = sumBal ((groupRows keyOf df row.key).filter nplClassOnly) := by
  intro row hrow
  rcases List.mem_map.mp hrow with ⟨k, _, rfl⟩
  simp [nplGroupRow]

/-- C8: invoking `calculate_all_kris` twice on the same engine instance
with the input unmodified between calls yields identical result trees:
the first call leaves the engine state unchanged and the second call on
that state returns the same tree. -/
theorem calculate_all_kris_idempotent (e : CreditRiskKRI) :
    (calculate_all_kris_method ((calculate_all_kris_method e).2)).1
      = (calculate_all_kris_method e).1 ∧
    (calculate_all_kris_method e).2 = e :=
  ⟨rfl, rfl⟩

/-- C9: the engine copies the loan collection at construction
(`self.df = df.copy()`), so a caller mutation through its own reference
after construction does not change any subsequently computed metric, and
the computed tree is exactly that of the captured collection. -/
theorem engine_copies_input (h : Heap) (r : ℕ) (v : List Loan)
    (hr : r < h.next) :
    runAllKris (heapWrite (constructOnHeap h r).2 r v) (constructOnHeap h r).1
      = runAllKris (constructOnHeap h r).2 (constructOnHeap h r).1
    ∧ runAllKris (constructOnHeap h r).2 (constructOnHeap h r).1
      = calculate_all_kris (CreditRiskKRI.init (h.mem r)) := by
  have hne : h.next ≠ r := Nat.ne_of_gt hr
  constructor
  · simp [runAllKris, heapWrite, constructOnHeap, hne]
  · simp [runAllKris, constructOnHeap, CreditRiskKRI.init]

/-- Witness for C9 at a concrete one-reference heap. -/
theorem engine_copies_input_witness :
    0 < (Heap.mk (fun _ => []) 1).next
    ∧ runAllKris
        (heapWrite (constructOnHeap (Heap.mk (fun _ => []) 1) 0).2 0 [baseLoan])
        (constructOnHeap (Heap.mk (fun _ => []) 1) 0).1
      = runAllKris (constructOnHeap (Heap.mk (fun _ => []) 1) 0).2
          (constructOnHeap (Heap.mk (fun _ => []) 1) 0).1 :=
  ⟨Nat.zero_lt_one,
   (engine_copies_input (Heap.mk (fun _ => []) 1) 0 [baseLoan]
     Nat.zero_lt_one).1⟩

/-- C2: for positive total balance, a loan is NPL exactly when its
classification is class 4 or 5 or its DPD is ≥ 90; `npl_balance` sums
exactly those balances, `npl_balance_ratio` is `balance/total*100`,
`within_risk_appetite` is the strict comparison with 3.0, and
`risk_appetite_utilization` is `ratio/limit*100`; on the 2-loan scenario
portfolio the NPL balance is 300 and the ratio 75.0. -/
theorem npl_metrics_functional :
    (∀ df : List Loan, 0 < sumBal df →
      (calculate_npl_metrics (CreditRiskKRI.init df)).npl_balance
          = sumBal (df.filter (fun l =>
              decide (l.loan_classification = Classification.c4 ∨
                l.loan_classification = Classification.c5 ∨
                90 ≤ l.days_past_due)))
        ∧ (calculate_npl_metrics (CreditRiskKRI.init df)).npl_balance_ratio
            = some ((calculate_npl_metrics (CreditRiskKRI.init df)).npl_balance
                / sumBal df * 100)
        ∧ (calculate_npl_metrics (CreditRiskKRI.init df)).within_risk_appetite
            = decide ((calculate_npl_metrics (CreditRiskKRI.init df)).npl_balance
                / sumBal df * 100 < 3)
        ∧ (calculate_npl_metrics (CreditRiskKRI.init df)).risk_appetite_utilization
            = some (((calculate_npl_metrics (CreditRiskKRI.init df)).npl_balance
                / sumBal df * 100) / 3 * 100))
    ∧ (calculate_npl_metrics (CreditRiskKRI.init scenario2Loans)).npl_balance = 300
    ∧ (calculate_npl_metrics (CreditRiskKRI.init scenario2Loans)).npl_balance_ratio
        = some 75 := by
  refine ⟨?_, ?_, ?_⟩
  · intro df hpos
    have hne : sumBal df ≠ 0 := ne_of_gt hpos
    refine ⟨rfl, ?_, ?_, ?_⟩ <;>
      simp [calculate_npl_metrics, CreditRiskKRI.init, defaultRiskAppetite,
        pctOf, fdiv, hne, pyLt]
  · simp +decide [calculate_npl_metrics, CreditRiskKRI.init, sumBal, nplMask,
      List.filter_cons, scenario2Loans, baseLoan]
  · simp +decide [calculate_npl_metrics, CreditRiskKRI.init, sumBal, pctOf, fdiv,
      nplMask, List.filter_cons, scenario2Loans, baseLoan]
    norm_num

/-- Witness for C2 at the scenario portfolio. -/
theorem npl_metrics_functional_witness :
    0 < sumBal scenario2Loans
    ∧ (calculate_npl_metrics (CreditRiskKRI.init scenario2Loans)).npl_balance_ratio
        = some ((calculate_npl_metrics (CreditRiskKRI.init scenario2Loans)).npl_balance
            / sumBal scenario2Loans * 100) := by
  have h : 0 < sumBal scenario2Loans := by
    norm_num [sumBal, scenario2Loans, baseLoan]
  exact ⟨h, (npl_metrics_functional.1 scenario2Loans h).2.1⟩

/-- C1 counterexample: on a portfolio whose total outstanding balance is
zero, the headline `npl_balance_ratio` is the non-finite result of a zero
division (`0/0` is NaN in the float code), not 0 as the claim states. -/
theorem headline_ratio_nan_on_zero_total :
    (calculate_npl_metrics (CreditRiskKRI.init [zeroBalLoan])).npl_balance_ratio = none
    ∧ (calculate_npl_metrics (CreditRiskKRI.init [zeroBalLoan])).npl_balance_ratio
        ≠ some 0 := by
  constructor <;>
    simp [calculate_npl_metrics, CreditRiskKRI.init, pctOf, fdiv, sumBal,
      zeroBalLoan, baseLoan]

/-- C1 (amended): within every grouped breakdown a group with zero total
balance yields ratio 0 (the per-group lambdas carry an explicit guard),
but the headline ratios are unguarded: on a portfolio with zero total
outstanding balance, `npl_balance_ratio`, every PAR bucket ratio and
every early-warning ratio are non-finite (NaN), not 0. -/
theorem zero_denominator_handling :
    ∀ df : List Loan,
      ((∀ row ∈ (calculate_npl_metrics (CreditRiskKRI.init df)).by_segment,
          row.total_balance = 0 → row.npl_ratio = 0)
      ∧ (∀ row ∈ (calculate_npl_metrics (CreditRiskKRI.init df)).by_product,
          row.total_balance = 0 → row.npl_ratio = 0)
      ∧ (∀ row ∈ (calculate_npl_metrics (CreditRiskKRI.init df)).by_industry,
          row.total_balance = 0 → row.npl_ratio = 0)
      ∧ (∀ row ∈ (calculate_npl_metrics (CreditRiskKRI.init df)).by_province,
          row.total_balance = 0 → row.npl_ratio = 0)
      ∧ (∀ row ∈ (calculate_par_metrics (CreditRiskKRI.init df)).by_segment,
          sumBal (groupRows (fun l => l.customer_segment) df row.customer_segment) = 0 →
            row.par30_ratio = 0 ∧ row.par90_ratio = 0)
      ∧ (∀ row ∈ calculate_vintage_analysis (CreditRiskKRI.init df),
          row.total_balance = 0 → row.npl_ratio = 0)
      ∧ (∀ row ∈ calculate_segment_performance (CreditRiskKRI.init df),
          row.total_balance = 0 → row.npl_ratio = 0 ∧ row.par30_ratio = 0))
    ∧ (sumBal df = 0 →
        (calculate_npl_metrics (CreditRiskKRI.init df)).npl_balance_ratio = none
        ∧ (calculate_par_metrics (CreditRiskKRI.init df)).par30.ratio = none
        ∧ (calculate_par_metrics (CreditRiskKRI.init df)).par60.ratio = none
        ∧ (calculate_par_metrics (CreditRiskKRI.init df)).par90.ratio = none
        ∧ (calculate_par_metrics (CreditRiskKRI.init df)).par180.ratio = none
        ∧ (calculate_early_warning_indicators (CreditRiskKRI.init df)).early_delinquency.ratio = none
        ∧ (calculate_early_warning_indicators (CreditRiskKRI.init df)).watch_list.ratio = none
        ∧ (calculate_early_warning_indicators (CreditRiskKRI.init df)).new_loans_issues.ratio = none) := by
  intro df
  constructor
  · refine ⟨?_, ?_, ?_, ?_, ?_, ?_, ?_⟩
    · exact nplBreakdown_zero_guard _ df
    · exact nplBreakdown_zero_guard _ df
    · exact nplBreakdown_zero_guard _ df
    · exact nplBreakdown_zero_guard _ df
    · intro row hrow h0
      rcases List.mem_map.mp hrow with ⟨k, _, rfl⟩
      simp only [calculate_par_metrics, CreditRiskKRI.init] at h0 ⊢
      constructor <;> simp [guardedPct, h0]
    · intro row hrow h0
      rcases List.mem_map.mp hrow with ⟨k, _, rfl⟩
      simp only [calculate_vintage_analysis, CreditRiskKRI.init] at h0 ⊢
      simp [guardedPct, h0]
    · intro row hrow h0
      rcases List.mem_map.mp hrow with ⟨k, _, rfl⟩
      simp only [calculate_segment_performance, CreditRiskKRI.init] at h0 ⊢
      constructor <;> simp [guardedPct, h0]
  · intro h0
    refine ⟨?_, ?_, ?_, ?_, ?_, ?_, ?_, ?_⟩ <;>
      simp [calculate_npl_metrics, calculate_par_metrics,
        calculate_early_warning_indicators, CreditRiskKRI.init, pctOf, fdiv, h0]

/-- Witness for C1 (amended) on a zero-balance portfolio. -/
theorem zero_denominator_handling_witness :
    sumBal [zeroBalLoan] = 0
    ∧ (calculate_npl_metrics (CreditRiskKRI.init [zeroBalLoan])).npl_balance_ratio = none
    ∧ (calculate_early_warning_indicators (CreditRiskKRI.init [zeroBalLoan])).watch_list.ratio = none := by
  have h : sumBal [zeroBalLoan] = 0 := by
    simp [sumBal, zeroBalLoan, baseLoan]
  exact ⟨h, ((zero_denominator_handling [zeroBalLoan]).2 h).1,
    ((zero_denominator_handling [zeroBalLoan]).2 h).2.2.2.2.2.2.1⟩

/-- C3 counterexample: a loan with `days_past_due = 120` but class `c1`
counts in the headline NPL balance yet not in the by-segment breakdown,
so the breakdown does not use the headline predicate. -/
theorem breakdown_ignores_dpd :
    (calculate_npl_metrics (CreditRiskKRI.init [dpdOnlyLoan])).npl_balance = 100
    ∧ ((calculate_npl_metrics (CreditRiskKRI.init [dpdOnlyLoan])).by_segment.map
        (fun r => r.npl_balance)) = [0]
    ∧ (0 : ℚ) ≠ 100 := by
  refine ⟨?_, ?_, by norm_num⟩ <;>
    simp +decide [calculate_npl_metrics, CreditRiskKRI.init, nplBreakdown,
      nplGroupRow, groupKeys, groupRows, sumBal, nplMask, nplClassOnly,
      List.filter_cons, List.insertionSort, List.orderedInsert,
      dpdOnlyLoan, baseLoan]

/-- C3 (amended): the four NPL breakdown tables and the vintage cohorts
compute their NPL figures with the classification-only predicate
(class 4 or 5), ignoring `days_past_due` — not with the headline
OR-predicate. -/
theorem breakdowns_use_class_only_npl :
    ∀ df : List Loan,
      (∀ row ∈ (calculate_npl_metrics (CreditRiskKRI.init df)).by_segment,
        row.npl_balance = sumBal ((groupRows (fun l => l.customer_segment) df row.key).filter
          (fun l => decide (l.loan_classification = Classification.c4 ∨
            l.loan_classification = Classification.c5))))
      ∧ (∀ row ∈ (calculate_npl_metrics (CreditRiskKRI.init df)).by_product,
        row.npl_balance = sumBal ((groupRows (fun l => l.loan_type) df row.key).filter
          (fun l => decide (l.loan_classification = Classification.c4 ∨
            l.loan_classification = Classification.c5))))
      ∧ (∀ row ∈ (calculate_npl_metrics (CreditRiskKRI.init df)).by_industry,
        row.npl_balance = sumBal ((groupRows (fun l => l.industry) df row.key).filter
          (fun l => decide (l.loan_classification = Classification.c4 ∨
            l.loan_classification = Classification.c5))))
      ∧ (∀ row ∈ (calculate_npl_metrics (CreditRiskKRI.init df)).by_province,
        row.npl_balance = sumBal ((groupRows (fun l => l.province) df row.key).filter
          (fun l => decide (l.loan_classification = Classification.c4 ∨
            l.loan_classification = Classification.c5))))
      ∧ (∀ row ∈ calculate_vintage_analysis (CreditRiskKRI.init df),
          row.npl_balance = sumBal ((groupRows (fun l => l.vintage) df row.vintage).filter
            (fun l => decide (l.loan_classification = Classification.c4 ∨
              l.loan_classification = Classification.c5)))
          ∧ row.npl_count = ((groupRows (fun l => l.vintage) df row.vintage).filter
              (fun l => decide (l.loan_classification = Classification.c4 ∨
                l.loan_classification = Classification.c5))).length) := by
  intro df
  refine ⟨?_, ?_, ?_, ?_, ?_⟩
  · exact nplBreakdown_class_only _ df
  · exact nplBreakdown_class_only _ df
  · exact nplBreakdown_class_only _ df
  · exact nplBreakdown_class_only _ df
  · intro row hrow
    rcases List.mem_map.mp hrow with ⟨k, _, rfl⟩
    exact ⟨rfl, rfl⟩

/-- Witness for C3 (amended) at a concrete one-segment portfolio. -/
theorem breakdowns_use_class_only_npl_witness :
    (nplGroupRow (fun l => l.customer_segment) [dpdOnlyLoan] 0)
      ∈ (calculate_npl_metrics (CreditRiskKRI.init [dpdOnlyLoan])).by_segment
    ∧ (nplGroupRow (fun l => l.customer_segment) [dpdOnlyLoan] 0).npl_balance
        = sumBal ((groupRows (fun l => l.customer_segment) [dpdOnlyLoan]
            (nplGroupRow (fun l => l.customer_segment) [dpdOnlyLoan] 0).key).filter
            (fun l => decide (l.loan_classification = Classification.c4 ∨
              l.loan_classification = Classification.c5))) := by
  have hm : (nplGroupRow (fun l => l.customer_segment) [dpdOnlyLoan] 0)
      ∈ (calculate_npl_metrics (CreditRiskKRI.init [dpdOnlyLoan])).by_segment := by
    simp [calculate_npl_metrics, CreditRiskKRI.init, nplBreakdown, groupKeys,
      List.insertionSort, List.orderedInsert, dpdOnlyLoan, baseLoan]
  exact ⟨hm, (breakdowns_use_class_only_npl [dpdOnlyLoan]).1 _ hm⟩

/-- The count column of `qualityTriples` sums to the row count of `df`. -/
theorem qualityCountSum_eq (df : List Loan) :
    qualityCountSum df = (df.length : ℚ) := by
  unfold qualityCountSum qualityTriples
  rw [List.map_map]
  have h := length_filter_key (fun l => l.loan_classification)
    ((df.map (fun l => l.loan_classification)).dedup) (List.nodup_dedup _) df
  have hcomp : ((fun r : Classification × ℕ × ℚ => (r.2.1 : ℚ)) ∘ fun k =>
      (k, (groupRows (fun l => l.loan_classification) df k).length,
        sumBal (groupRows (fun l => l.loan_classification) df k)))
      = fun k => ((df.filter
          (fun x => decide (x.loan_classification = k))).length : ℚ) := by
    funext k
    simp [groupRows]
  rw [groupKeys, hcomp, h, List.filter_eq_self.mpr]
  intro x hx
  simp only [decide_eq_true_eq, List.mem_dedup]
  exact List.mem_map.mpr ⟨x, hx, rfl⟩

/-- The balance column of `qualityTriples` sums to the total balance. -/
theorem qualityBalanceSum_eq (df : List Loan) :
    qualityBalanceSum df = sumBal df := by
  unfold qualityBalanceSum qualityTriples
  rw [List.map_map]
  have h := sum_map_filter_key (fun l => l.loan_classification)
    (fun l => l.outstanding_balance_vnd_mil)
    ((df.map (fun l => l.loan_classification)).dedup) (List.nodup_dedup _) df
  have hcomp : ((fun r : Classification × ℕ × ℚ => r.2.2) ∘ fun k =>
      (k, (groupRows (fun l => l.loan_classification) df k).length,
        sumBal (groupRows (fun l => l.loan_classification) df k)))
      = fun k => ((df.filter
          (fun x => decide (x.loan_classification = k))).map
            (fun l => l.outstanding_balance_vnd_mil)).sum := by
    funext k
    simp [groupRows, sumBal]
  rw [groupKeys, hcomp, h, List.filter_eq_self.mpr]
  · rfl
  · intro x hx
    simp only [decide_eq_true_eq, List.mem_dedup]
    exact List.mem_map.mpr ⟨x, hx, rfl⟩

/-- C6 counterexample: a non-empty portfolio whose total balance is zero
has NaN `balance_pct` entries (0/0), so they do not sum to 100. -/
theorem quality_balance_pct_nan :
    osum ((calculate_quality_distribution (CreditRiskKRI.init [zeroBalLoan])).map
      (fun r => r.balance_pct)) = none
    ∧ osum ((calculate_quality_distribution (CreditRiskKRI.init [zeroBalLoan])).map
        (fun r => r.balance_pct)) ≠ some 100 := by
  constructor <;>
    simp [calculate_quality_distribution, CreditRiskKRI.init, qualityTriples,
      qualityBalanceSum, qualityCountSum, groupKeys, groupRows, sumBal,
      pctOf, fdiv, osum, oadd, List.insertionSort, List.orderedInsert,
      zeroBalLoan, baseLoan]

/-- C6 (amended): for every non-empty portfolio with nonzero total
outstanding balance, the quality-distribution rows come out sorted by the
fixed severity enumeration (out-of-vocabulary labels, whose mapped sort
key is NaN, after all five), and both `count_pct` and `balance_pct` sum
to exactly 100. -/
theorem quality_distribution_props :
    ∀ df : List Loan, df ≠ [] → sumBal df ≠ 0 →
      List.Sorted (fun a b : ℕ => a ≤ b)
        ((calculate_quality_distribution (CreditRiskKRI.init df)).map
          (fun r => classIndex r.classification))
      ∧ osum ((calculate_quality_distribution (CreditRiskKRI.init df)).map
          (fun r => r.count_pct)) = some 100
      ∧ osum ((calculate_quality_distribution (CreditRiskKRI.init df)).map
          (fun r => r.balance_pct)) = some 100 := by
  intro df hne hbal
  have hSc : qualityCountSum df ≠ 0 := by
    rw [qualityCountSum_eq]
    exact_mod_cast List.length_pos.mpr hne |>.ne'
  have hSb : qualityBalanceSum df ≠ 0 := by
    rw [qualityBalanceSum_eq]; exact hbal
  refine ⟨?_, ?_, ?_⟩
  · have hs : List.Sorted qualityOrder
        (calculate_quality_distribution (CreditRiskKRI.init df)) :=
      List.sorted_insertionSort qualityOrder _
    have hp : List.Pairwise
        (fun a b : QualityRow => classIndex a.classification ≤ classIndex b.classification)
        (calculate_quality_distribution (CreditRiskKRI.init df)) :=
      List.Pairwise.imp (fun h => h) hs
    exact List.pairwise_map.mpr hp
  · have hperm := (List.perm_insertionSort qualityOrder
      ((qualityTriples (CreditRiskKRI.init df).df).map (fun r =>
        ({ classification := r.1, count := r.2.1, balance := r.2.2
           count_pct := pctOf (r.2.1 : ℚ) (qualityCountSum (CreditRiskKRI.init df).df)
           balance_pct := pctOf r.2.2 (qualityBalanceSum (CreditRiskKRI.init df).df)
           : QualityRow })))).map (fun r => r.count_pct)
    rw [calculate_quality_distribution, osum_perm hperm, List.map_map]
    have : ((fun r : QualityRow => r.count_pct) ∘ fun r : Classification × ℕ × ℚ =>
        ({ classification := r.1, count := r.2.1, balance := r.2.2
           count_pct := pctOf (r.2.1 : ℚ) (qualityCountSum (CreditRiskKRI.init df).df)
           balance_pct := pctOf r.2.2 (qualityBalanceSum (CreditRiskKRI.init df).df)
           : QualityRow }))
        = (fun c => pctOf c (qualityCountSum df)) ∘
            (fun r : Classification × ℕ × ℚ => (r.2.1 : ℚ)) := by
      funext r
      simp [CreditRiskKRI.init]
    rw [this, ← List.map_map]
    exact osum_pct_list _ _ hSc rfl
  · have hperm := (List.perm_insertionSort qualityOrder
      ((qualityTriples (CreditRiskKRI.init df).df).map (fun r =>
        ({ classification := r.1, count := r.2.1, balance := r.2.2
           count_pct := pctOf (r.2.1 : ℚ) (qualityCountSum (CreditRiskKRI.init df).df)
           balance_pct := pctOf r.2.2 (qualityBalanceSum (CreditRiskKRI.init df).df)
           : QualityRow })))).map (fun r => r.balance_pct)
    rw [calculate_quality_distribution, osum_perm hperm, List.map_map]
    have : ((fun r : QualityRow => r.balance_pct) ∘ fun r : Classification × ℕ × ℚ =>
        ({ classification := r.1, count := r.2.1, balance := r.2.2
           count_pct := pctOf (r.2.1 : ℚ) (qualityCountSum (CreditRiskKRI.init df).df)
           balance_pct := pctOf r.2.2 (qualityBalanceSum (CreditRiskKRI.init df).df)
           : QualityRow }))
        = (fun c => pctOf c (qualityBalanceSum df)) ∘
            (fun r : Classification × ℕ × ℚ => r.2.2) := by
      funext r
      simp [CreditRiskKRI.init]
    rw [this, ← List.map_map]
    exact osum_pct_list _ _ hSb rfl

/-- Witness for C6 (amended) at the scenario portfolio. -/
theorem quality_distribution_props_witness :
    scenario2Loans ≠ [] ∧ sumBal scenario2Loans ≠ 0
    ∧ osum ((calculate_quality_distribution (CreditRiskKRI.init scenario2Loans)).map
        (fun r => r.balance_pct)) = some 100 := by
  have h1 : scenario2Loans ≠ [] := by simp [scenario2Loans]
  have h2 : sumBal scenario2Loans ≠ 0 := by
    norm_num [sumBal, scenario2Loans, baseLoan]
  exact ⟨h1, h2, (quality_distribution_props scenario2Loans h1 h2).2.2⟩

/-- A list whose members are all `k` deduplicates to `[k]`. -/
theorem dedup_const {β : Type} [DecidableEq β] (k : β) :
    ∀ l : List β, l ≠ [] → (∀ x ∈ l, x = k) → l.dedup = [k] := by
  intro l
  induction l with
  | nil => intro h; exact absurd rfl h
  | cons x t ih =>
    intro _ hall
    have hx : x = k := hall x (List.mem_cons_self x t)
    cases t with
    | nil => simp [hx]
    | cons y t' =>
      have hy : y = k := hall y (List.mem_cons_of_mem _ (List.mem_cons_self y t'))
      have hmem : x ∈ y :: t' := by
        rw [hx, hy]; exact List.mem_cons_self k t'
      rw [List.dedup_cons_of_mem hmem]
      exact ih (by simp) (fun z hz => hall z (List.mem_cons_of_mem _ hz))

/-- Filtering `range N` for one value below `N` leaves exactly it. -/
theorem filter_eq_range (i : ℕ) :
    ∀ N : ℕ, i < N → (List.range N).filter (fun j => decide (j = i)) = [i] := by
  intro N
  induction N with
  | zero => intro h; exact absurd h (Nat.not_lt_zero i)
  | succ n ih =>
    intro h
    rw [List.range_succ, List.filter_append]
    rcases Nat.lt_or_ge i n with hlt | hge
    · have hni : ¬(n = i) := (Nat.ne_of_gt hlt)
      simp [ih hlt, hni]
    · have hieq : i = n := Nat.le_antisymm (Nat.lt_succ_iff.mp h) hge
      subst hieq
      have hnone : (List.range i).filter (fun j => decide (j = i)) = [] := by
        apply List.filter_eq_nil_iff.mpr
        intro j hj
        simp only [decide_eq_true_eq]
        exact Nat.ne_of_lt (List.mem_range.mp hj)
      simp [hnone]

/-- One loan of the evenly split portfolio: category `i`, balance `b`. -/
def evenLoan (b : ℚ) (i : ℕ) : Loan :=
  { loan_id := i, customer_segment := 0, province := 0, industry := i,
    loan_type := 0, months_on_book := 12, original_amount_vnd_mil := b,
    outstanding_balance_vnd_mil := b, interest_rate_pct := 10,
    days_past_due := 0, loan_classification := .c1, vintage := 0 }

/-- A portfolio whose balance is split evenly across `N` industries. -/
def evenPortfolio (N : ℕ) (b : ℚ) : List Loan :=
  (List.range N).map (evenLoan b)

/-- The three HHI bands of the `concentration_level` expression. -/
theorem concLevel_iff (h : ℚ) :
    (concLevel (some h) = "High" ↔ 2500 < h)
    ∧ (concLevel (some h) = "Moderate" ↔ 1500 < h ∧ h ≤ 2500)
    ∧ (concLevel (some h) = "Low" ↔ h ≤ 1500) := by
  simp only [concLevel, pyGt]
  by_cases h1 : (2500 : ℚ) < h
  · have h2 : (1500 : ℚ) < h := lt_trans (by norm_num) h1
    simp [h1, h2, not_le.mpr h1, not_le.mpr h2]
  · by_cases h2 : (1500 : ℚ) < h
    · simp [h1, h2, not_lt.mp h1, not_le.mpr h2]
    · simp [h1, h2, not_lt.mp h2]

/-- C7: with positive total balance, a single-category portfolio yields a
100% share, HHI exactly 10000 and level "High"; an even split across `N`
categories yields HHI `10000/N`; and the level is "High" iff HHI > 2500,
"Moderate" iff 1500 < HHI ≤ 2500, else "Low". -/
theorem concentration_hhi :
    (∀ (df : List Loan) (k : ℕ), 0 < sumBal df → (∀ l ∈ df, l.province = k) →
      (calculate_concentration_risk (CreditRiskKRI.init df)).province.details
          = [(k, some 100)]
        ∧ (calculate_concentration_risk (CreditRiskKRI.init df)).province.top_share
          = some 100
        ∧ (calculate_concentration_risk (CreditRiskKRI.init df)).province.hhi
          = some 10000
        ∧ (calculate_concentration_risk (CreditRiskKRI.init df)).province.concentration_level
          = "High")
    ∧ (∀ (N : ℕ) (b : ℚ), 0 < N → 0 < b →
        (calculate_concentration_risk (CreditRiskKRI.init (evenPortfolio N b))).industry.hhi
          = some ((10000 : ℚ) / N))
    ∧ (∀ (df : List Loan) (h : ℚ),
        (calculate_concentration_risk (CreditRiskKRI.init df)).industry.hhi = some h →
        ((calculate_concentration_risk (CreditRiskKRI.init df)).industry.concentration_level
            = "High" ↔ 2500 < h)
        ∧ ((calculate_concentration_risk (CreditRiskKRI.init df)).industry.concentration_level
            = "Moderate" ↔ 1500 < h ∧ h ≤ 2500)
        ∧ ((calculate_concentration_risk (CreditRiskKRI.init df)).industry.concentration_level
            = "Low" ↔ h ≤ 1500)) := by
  refine ⟨?_, ?_, ?_⟩
  · intro df k hpos hall
    have hS : sumBal df ≠ 0 := ne_of_gt hpos
    have hne : df ≠ [] := by
      intro hnil
      rw [hnil] at hpos
      simp [sumBal] at hpos
    have hkeys : groupKeys (fun l => l.province) df = [k] := by
      apply dedup_const
      · simp [hne]
      · intro x hx
        rcases List.mem_map.mp hx with ⟨l, hl, rfl⟩
        exact hall l hl
    have hrows : groupRows (fun l => l.province) df k = df := by
      apply List.filter_eq_self.mpr
      intro l hl
      simp [hall l hl]
    have hshares : concentrationShares (fun l => l.province) df
        = [(k, some 100)] := by
      unfold concentrationShares concentrationSorted
      rw [hkeys]
      simp only [List.map_cons, List.map_nil, hrows]
      rw [List.insertionSort]
      simp only [List.insertionSort, List.orderedInsert, List.map_cons, List.map_nil]
      simp [pctOf, fdiv, hS]
    refine ⟨?_, ?_, ?_, ?_⟩ <;>
      simp [calculate_concentration_risk, concentrationAxis, CreditRiskKRI.init,
        hshares, topShare, hhiOf, osum, oadd, concLevel, pyGt] <;> norm_num
  · intro N b hN hb
    have hNQ : (N : ℚ) ≠ 0 := Nat.cast_ne_zero.mpr (Nat.pos_iff_ne_zero.mp hN)
    have hbne : b ≠ 0 := ne_of_gt hb
    have hmap : (evenPortfolio N b).map (fun l => l.industry) = List.range N := by
      unfold evenPortfolio
      rw [List.map_map]
      have : ((fun l : Loan => l.industry) ∘ evenLoan b) = id := by
        funext i
        simp [evenLoan]
      rw [this, List.map_id]
    have hkeys : groupKeys (fun l => l.industry) (evenPortfolio N b) = List.range N := by
      unfold groupKeys
      rw [hmap]
      exact (List.nodup_range N).dedup
    have hrows : ∀ i < N, groupRows (fun l => l.industry) (evenPortfolio N b) i
        = [evenLoan b i] := by
      intro i hi
      unfold groupRows evenPortfolio
      rw [List.filter_map]
      have : ((fun l : Loan => decide (l.industry = i)) ∘ evenLoan b)
          = fun j => decide (j = i) := by
        funext j
        simp [evenLoan]
      rw [this, filter_eq_range i N hi]
      rfl
    have htot : sumBal (evenPortfolio N b) = N * b := by
      unfold sumBal evenPortfolio
      rw [List.map_map]
      have : ((fun l : Loan => l.outstanding_balance_vnd_mil) ∘ evenLoan b)
          = fun _ => b := by
        funext j
        simp [evenLoan]
      rw [this, List.map_const', List.sum_replicate, List.length_range,
        nsmul_eq_mul]
    have htotne : sumBal (evenPortfolio N b) ≠ 0 := by
      rw [htot]
      exact mul_ne_zero hNQ hbne
    have hsums : (groupKeys (fun l => l.industry) (evenPortfolio N b)).map
        (fun kk => (kk, sumBal (groupRows (fun l => l.industry) (evenPortfolio N b) kk)))
        = (List.range N).map (fun i => (i, b)) := by
      rw [hkeys]
      apply List.map_congr_left
      intro i hi
      rw [hrows i (List.mem_range.mp hi)]
      simp [sumBal, evenLoan]
    have hsorted : List.insertionSort (fun a c : ℕ × ℚ => c.2 ≤ a.2)
        ((List.range N).map (fun i => (i, b)))
        = (List.range N).map (fun i => (i, b)) := by
      apply List.Sorted.insertionSort_eq
      refine List.pairwise_map.mpr ?_
      exact (List.pairwise_lt_range N).imp (fun _ => le_refl b)
    have hshares : concentrationShares (fun l => l.industry) (evenPortfolio N b)
        = (List.range N).map (fun i => (i, some (b / (N * b) * 100))) := by
      unfold concentrationShares concentrationSorted
      rw [hsums, hsorted, List.map_map, htot]
      apply List.map_congr_left
      intro i _
      simp [Function.comp, pctOf, fdiv, mul_ne_zero hNQ hbne]
    have hq : b / (N * b) * 100 = 100 / N := by
      field_simp
      ring
    show hhiOf (concentrationShares (fun l => l.industry) (evenPortfolio N b))
        = some ((10000 : ℚ) / N)
    rw [hshares]
    unfold hhiOf
    rw [List.map_map]
    have : ((fun p : ℕ × Option ℚ => p.2.map (fun q => q * q)) ∘
        fun i => (i, some (b / (N * b) * 100)))
        = fun _ => some (((100 : ℚ) / N) * (100 / N)) := by
      funext i
      simp [hq]
    rw [this]
    have hconst : (List.range N).map (fun _ => some (((100 : ℚ) / N) * (100 / N)))
        = (List.range N).map (fun i => some ((fun _ : ℕ => ((100 : ℚ) / N) * (100 / N)) i)) := rfl
    rw [hconst, osum_map_some (fun _ : ℕ => ((100 : ℚ) / N) * (100 / N)) (List.range N)]
    rw [List.map_const', List.sum_replicate, List.length_range, nsmul_eq_mul]
    congr 1
    field_simp
    ring
  · intro df h hh
    have hlev : (calculate_concentration_risk (CreditRiskKRI.init df)).industry.concentration_level
        = concLevel ((calculate_concentration_risk (CreditRiskKRI.init df)).industry.hhi) := rfl
    rw [hlev, hh]
    exact concLevel_iff h

/-- Witness for C7 at an even 4-way split of 100. -/
theorem concentration_hhi_witness :
    0 < 4 ∧ (0 : ℚ) < 25
    ∧ (calculate_concentration_risk (CreditRiskKRI.init (evenPortfolio 4 25))).industry.hhi
        = some ((10000 : ℚ) / 4) :=
  ⟨by norm_num, by norm_num,
   concentration_hhi.2.1 4 25 (by norm_num) (by norm_num)⟩

instance : IsTotal ℕ (fun a b => b ≤ a) :=
  ⟨fun x y => Or.symm (Nat.le_total x y)⟩

instance : IsTrans ℕ (fun a b => b ≤ a) :=
  ⟨fun _ _ _ h1 h2 => Nat.le_trans h2 h1⟩

/-- A class is an observed previous class iff some transition leaves it. -/
theorem mem_observedPrev_iff (ts : List (ℕ × Classification × Classification))
    (r : Classification) :
    r ∈ observedPrev ts ↔ 0 < ts.countP (fun t => decide (t.2.1 = r)) := by
  rw [observedPrev, List.mem_dedup, List.countP_pos_iff]
  constructor
  · intro h
    rcases List.mem_map.mp h with ⟨t, ht, rfl⟩
    exact ⟨t, ht, by simp⟩
  · rintro ⟨t, ht, hp⟩
    simp only [decide_eq_true_eq] at hp
    exact List.mem_map.mpr ⟨t, ht, hp⟩

/-- The sum of one final-matrix row: 0 for a class with no outgoing
transitions, else 100 × (in-vocabulary transitions out of `r`) / (all
transitions out of `r`). -/
theorem migRow_sum (ts : List (ℕ × Classification × Classification))
    (r : Classification) :
    ((all_classes.map (fun c => migCell ts r c)).sum)
      = if ts.countP (fun t => decide (t.2.1 = r)) = 0 then 0
        else (ts.countP (fun t => decide (t.2.1 = r ∧ t.2.2 ∈ all_classes)) : ℚ)
              / (ts.countP (fun t => decide (t.2.1 = r)) : ℚ) * 100 := by
  by_cases hn : ts.countP (fun t => decide (t.2.1 = r)) = 0
  · have hnotin : r ∉ observedPrev ts := by
      rw [mem_observedPrev_iff, hn]
      exact lt_irrefl 0
    simp [migCell, hnotin, hn]
  · have hin : r ∈ observedPrev ts := by
      rw [mem_observedPrev_iff]
      exact Nat.pos_of_ne_zero hn
    have hcell : (fun c => migCell ts r c)
        = (fun x => x / (ts.countP (fun t => decide (t.2.1 = r)) : ℚ) * 100) ∘
            (fun c => (ts.countP (fun t => decide (t.2.1 = r ∧ t.2.2 = c)) : ℚ)) := by
      funext c
      simp [migCell, hin, crosstabCell]
    rw [hcell, ← List.map_map, sum_map_div_mul, if_neg hn]
    congr 1
    congr 1
    have hnodup : all_classes.Nodup := by decide
    have hkey := length_filter_key (fun t : ℕ × Classification × Classification => t.2.2)
      all_classes hnodup (ts.filter (fun t => decide (t.2.1 = r)))
    have h1 : ∀ c : Classification,
        ts.countP (fun t => decide (t.2.1 = r ∧ t.2.2 = c))
          = ((ts.filter (fun t => decide (t.2.1 = r))).filter
              (fun t => decide (t.2.2 = c))).length := by
      intro c
      rw [List.filter_filter, List.countP_eq_length_filter]
      congr 1
      apply List.filter_congr
      intro t _
      by_cases hA : t.2.1 = r <;> by_cases hB : t.2.2 = c <;> simp [hA, hB]
    have h2 : ts.countP (fun t => decide (t.2.1 = r ∧ t.2.2 ∈ all_classes))
        = ((ts.filter (fun t => decide (t.2.1 = r))).filter
            (fun t => decide (t.2.2 ∈ all_classes))).length := by
      rw [List.filter_filter, List.countP_eq_length_filter]
      congr 1
      apply List.filter_congr
      intro t _
      by_cases hA : t.2.1 = r <;> by_cases hB : t.2.2 ∈ all_classes <;> simp [hA, hB]
    calc (all_classes.map
            (fun c => (ts.countP (fun t => decide (t.2.1 = r ∧ t.2.2 = c)) : ℚ))).sum
        = (all_classes.map (fun c =>
            (((ts.filter (fun t => decide (t.2.1 = r))).filter
              (fun t => decide (t.2.2 = c))).length : ℚ))).sum := by
          apply congrArg
          apply List.map_congr_left
          intro c _
          rw [h1 c]
      _ = (((ts.filter (fun t => decide (t.2.1 = r))).filter
            (fun t => decide (t.2.2 ∈ all_classes))).length : ℚ) := hkey
      _ = (ts.countP (fun t => decide (t.2.1 = r ∧ t.2.2 ∈ all_classes)) : ℚ) := by
          rw [h2]

/-- Every transition's current class is the classification of some record
of the current snapshot. -/
theorem transitions_cur_from_hist (hist : List HistRecord) (dPrev dCur : ℕ) :
    ∀ t ∈ transitionsOf hist dPrev dCur,
      ∃ q ∈ hist, q.snapshot_date = dCur ∧ q.loan_id = t.1
        ∧ q.loan_classification = t.2.2 := by
  intro t ht
  rcases List.mem_flatMap.mp ht with ⟨p, _, htp⟩
  rcases List.mem_map.mp htp with ⟨c, hc, rfl⟩
  rcases List.mem_filter.mp hc with ⟨hc', hcp⟩
  rcases List.mem_map.mp hc' with ⟨q, hq, rfl⟩
  rcases List.mem_filter.mp hq with ⟨hqh, hqd⟩
  exact ⟨q, hqh, of_decide_eq_true hqd, of_decide_eq_true hcp, rfl⟩

/-- Every transition's previous class is the classification of some record
of the previous snapshot, with the same `loan_id`. -/
theorem transitions_prev_from_hist (hist : List HistRecord) (dPrev dCur : ℕ) :
    ∀ t ∈ transitionsOf hist dPrev dCur,
      ∃ q ∈ hist, q.snapshot_date = dPrev ∧ q.loan_id = t.1
        ∧ q.loan_classification = t.2.1 := by
  intro t ht
  rcases List.mem_flatMap.mp ht with ⟨p, hp, htp⟩
  rcases List.mem_map.mp htp with ⟨c, _, rfl⟩
  rcases List.mem_map.mp hp with ⟨q, hq, rfl⟩
  rcases List.mem_filter.mp hq with ⟨hqh, hqd⟩
  exact ⟨q, hqh, of_decide_eq_true hqd, rfl, rfl⟩

/-- A two-snapshot series whose previous snapshot only has a class-1 loan:
the §8 migration scenario. -/
def histC4 : List HistRecord :=
  [{ loan_id := 1, snapshot_date := 1, loan_classification := .c1 },
   { loan_id := 1, snapshot_date := 2, loan_classification := .c2 }]

/-- C4 counterexample: on a series with two distinct snapshot dates, the
rows for classes absent from the previous snapshot sum to 0, not 100. -/
theorem migration_zero_rows_break_claim :
    (calculate_migration_matrix histC4).map
        (fun M => M.map (fun row => (row.2.map (fun cell => cell.2)).sum))
      = some [100, 0, 0, 0, 0]
    ∧ (0 : ℚ) ≠ 100 := by
  constructor
  · simp +decide [calculate_migration_matrix, histC4, snapshotsDesc,
      List.insertionSort, List.orderedInsert, matrixOf, migCell, observedPrev,
      crosstabCell, transitionsOf, snapshotRows, all_classes, List.filter_cons]
  · norm_num

/-- C4 (amended): whenever at least two distinct snapshot dates exist and
every classification of the series is in the 5-class vocabulary, the
returned matrix has both axes equal to the fixed severity enumeration,
every row of a class with outgoing transitions in the joined pair sums to
exactly 100, and every other row sums to 0 (all-zero row). -/
theorem migration_matrix_row_sums :
    ∀ (hist : List HistRecord) (d0 d1 : ℕ) (rest : List ℕ),
      snapshotsDesc hist = d0 :: d1 :: rest →
      (∀ q ∈ hist, q.loan_classification ∈ all_classes) →
      calculate_migration_matrix hist
          = some (matrixOf (transitionsOf hist d1 d0))
      ∧ (matrixOf (transitionsOf hist d1 d0)).map (fun row => row.1) = all_classes
      ∧ (∀ row ∈ matrixOf (transitionsOf hist d1 d0),
          row.2.map (fun cell => cell.1) = all_classes)
      ∧ (∀ r ∈ all_classes,
          (0 < (transitionsOf hist d1 d0).countP (fun t => decide (t.2.1 = r)) →
            ((all_classes.map (fun c => migCell (transitionsOf hist d1 d0) r c)).sum) = 100)
          ∧ ((transitionsOf hist d1 d0).countP (fun t => decide (t.2.1 = r)) = 0 →
            ((all_classes.map (fun c => migCell (transitionsOf hist d1 d0) r c)).sum) = 0)) := by
  intro hist d0 d1 rest hsnap hvocab
  refine ⟨?_, ?_, ?_, ?_⟩
  · simp [calculate_migration_matrix, hsnap]
  · rfl
  · intro row hrow
    rcases List.mem_map.mp hrow with ⟨r, _, rfl⟩
    rfl
  · intro r _
    have hvocabT : ∀ t ∈ transitionsOf hist d1 d0, t.2.2 ∈ all_classes := by
      intro t ht
      rcases transitions_cur_from_hist hist d1 d0 t ht with ⟨q, hq, _, _, hcls⟩
      rw [← hcls]
      exact hvocab q hq
    have hcount : (transitionsOf hist d1 d0).countP
        (fun t => decide (t.2.1 = r ∧ t.2.2 ∈ all_classes))
        = (transitionsOf hist d1 d0).countP (fun t => decide (t.2.1 = r)) := by
      rw [List.countP_eq_length_filter, List.countP_eq_length_filter]
      congr 1
      apply List.filter_congr
      intro t ht
      simp [hvocabT t ht]
    constructor
    · intro hpos
      rw [migRow_sum, if_neg (Nat.pos_iff_ne_zero.mp hpos), hcount,
        div_self (by exact_mod_cast Nat.pos_iff_ne_zero.mp hpos)]
      norm_num
    · intro hzero
      rw [migRow_sum, if_pos hzero]

/-- Witness for C4 (amended) at a concrete in-vocabulary series. -/
theorem migration_matrix_row_sums_witness :
    snapshotsDesc histC4 = [2, 1]
    ∧ 0 < (transitionsOf histC4 1 2).countP
        (fun t => decide (t.2.1 = Classification.c1))
    ∧ ((all_classes.map
        (fun c => migCell (transitionsOf histC4 1 2) Classification.c1 c)).sum) = 100 :=
  ⟨by decide, by decide,
   ((migration_matrix_row_sums histC4 2 1 [] (by decide) (by decide)).2.2.2
     Classification.c1 (by decide)).1 (by decide)⟩

/-- A two-snapshot series used for the unavailable/selection witness. -/
def histW5 : List HistRecord :=
  [{ loan_id := 1, snapshot_date := 5, loan_classification := .c1 },
   { loan_id := 1, snapshot_date := 9, loan_classification := .c2 },
   { loan_id := 2, snapshot_date := 9, loan_classification := .c3 }]

/-- C5: the sentinel `None` is returned iff fewer than two distinct
snapshot dates exist; with at least two, the matrix is built from the two
most recent distinct dates under the numeric date order, and every
transition of the inner join comes from a record of each of the two
snapshots sharing its `loan_id` (loans present in only one snapshot yield
no transition). -/
theorem migration_two_snapshots :
    ∀ hist : List HistRecord,
      (calculate_migration_matrix hist = none
        ↔ ((hist.map (fun q => q.snapshot_date)).dedup).length < 2)
      ∧ (∀ (d0 d1 : ℕ) (rest : List ℕ), snapshotsDesc hist = d0 :: d1 :: rest →
          calculate_migration_matrix hist = some (matrixOf (transitionsOf hist d1 d0))
          ∧ (∀ d ∈ hist.map (fun q => q.snapshot_date), d ≤ d0)
          ∧ d1 < d0
          ∧ (∀ d ∈ hist.map (fun q => q.snapshot_date), d ≠ d0 → d ≤ d1)
          ∧ (∀ t ∈ transitionsOf hist d1 d0,
              (∃ p ∈ hist, p.snapshot_date = d1 ∧ p.loan_id = t.1)
              ∧ (∃ c ∈ hist, c.snapshot_date = d0 ∧ c.loan_id = t.1))) := by
  intro hist
  have hlen : (snapshotsDesc hist).length
      = ((hist.map (fun q => q.snapshot_date)).dedup).length :=
    (List.perm_insertionSort _ _).length_eq
  have hsorted : List.Sorted (fun a b => b ≤ a) (snapshotsDesc hist) :=
    List.sorted_insertionSort _ _
  have hnodup : (snapshotsDesc hist).Nodup :=
    ((List.perm_insertionSort _ _).nodup_iff).mpr (List.nodup_dedup _)
  have hmemsnap : ∀ d ∈ hist.map (fun q => q.snapshot_date), d ∈ snapshotsDesc hist := by
    intro d hd
    exact ((List.perm_insertionSort _ _).mem_iff).mpr (List.mem_dedup.mpr hd)
  constructor
  · cases hs : snapshotsDesc hist with
    | nil =>
      simp [calculate_migration_matrix, hs, ← hlen, hs]
    | cons a t =>
      cases t with
      | nil => simp [calculate_migration_matrix, hs, ← hlen, hs]
      | cons b t' => simp [calculate_migration_matrix, hs, ← hlen, hs]
  · intro d0 d1 rest hsnap
    rw [hsnap] at hsorted hnodup hmemsnap
    have hpair := List.pairwise_cons.mp hsorted
    have hd1le : d1 ≤ d0 := hpair.1 d1 (List.mem_cons_self d1 rest)
    have hd1ne : d1 ≠ d0 := by
      intro h
      exact (List.nodup_cons.mp hnodup).1 (h ▸ List.mem_cons_self d1 rest)
    refine ⟨by simp [calculate_migration_matrix, hsnap], ?_, ?_, ?_, ?_⟩
    · intro d hd
      rcases List.mem_cons.mp (hmemsnap d hd) with h | h
      · exact le_of_eq h
      · exact hpair.1 d h
    · exact lt_of_le_of_ne hd1le hd1ne
    · intro d hd hne
      rcases List.mem_cons.mp (hmemsnap d hd) with h | h
      · exact absurd h hne
      · rcases List.mem_cons.mp h with h' | h'
        · exact le_of_eq h'
        · exact (List.pairwise_cons.mp hpair.2).1 d h'
    · intro t ht
      constructor
      · rcases transitions_prev_from_hist hist d1 d0 t ht with ⟨q, hq, hdate, hid, _⟩
        exact ⟨q, hq, hdate, hid⟩
      · rcases transitions_cur_from_hist hist d1 d0 t ht with ⟨q, hq, hdate, hid, _⟩
        exact ⟨q, hq, hdate, hid⟩

/-- Witness for C5 at a concrete three-record, two-snapshot series. -/
theorem migration_two_snapshots_witness :
    snapshotsDesc histW5 = [9, 5]
    ∧ calculate_migration_matrix histW5
        = some (matrixOf (transitionsOf histW5 5 9)) :=
  ⟨by decide, ((migration_two_snapshots histW5).2 9 5 [] (by decide)).1⟩

/-- A series where loan 1 migrates from class 1 to an out-of-vocabulary
label while loan 2 stays in vocabulary. -/
def histW10 : List HistRecord :=
  [{ loan_id := 1, snapshot_date := 1, loan_classification := .c1 },
   { loan_id := 1, snapshot_date := 2, loan_classification := .other 0 },
   { loan_id := 2, snapshot_date := 1, loan_classification := .c1 },
   { loan_id := 2, snapshot_date := 2, loan_classification := .c2 }]

/-- C10: the final reindex keeps only the fixed 5-class vocabulary on both
axes, so transitions into an out-of-vocabulary class are dropped, and the
row of an in-vocabulary previous class with at least one such transition
sums to strictly less than 100 after row-normalization. -/
theorem migration_drops_out_of_vocab :
    ∀ (hist : List HistRecord) (d0 d1 : ℕ) (rest : List ℕ) (r : Classification),
      snapshotsDesc hist = d0 :: d1 :: rest →
      r ∈ all_classes →
      (∃ t ∈ transitionsOf hist d1 d0, t.2.1 = r ∧ t.2.2 ∉ all_classes) →
      calculate_migration_matrix hist = some (matrixOf (transitionsOf hist d1 d0))
      ∧ (matrixOf (transitionsOf hist d1 d0)).map (fun row => row.1) = all_classes
      ∧ (∀ row ∈ matrixOf (transitionsOf hist d1 d0),
          row.2.map (fun cell => cell.1) = all_classes)
      ∧ ((all_classes.map (fun c => migCell (transitionsOf hist d1 d0) r c)).sum) < 100 := by
  intro hist d0 d1 rest r hsnap _ hout
  rcases hout with ⟨t, ht, htr, htout⟩
  have hn : 0 < (transitionsOf hist d1 d0).countP (fun t => decide (t.2.1 = r)) := by
    rw [List.countP_pos_iff]
    exact ⟨t, ht, by simp [htr]⟩
  have hmlt : (transitionsOf hist d1 d0).countP
      (fun t => decide (t.2.1 = r ∧ t.2.2 ∈ all_classes))
      < (transitionsOf hist d1 d0).countP (fun t => decide (t.2.1 = r)) := by
    apply lt_of_le_of_ne
    · apply List.countP_mono_left
      intro x _ hx
      simp only [decide_eq_true_eq] at hx ⊢
      exact hx.1
    · intro heq
      have hall := List.countP_eq_length_filter
        (l := transitionsOf hist d1 d0) (p := fun t => decide (t.2.1 = r))
      rw [List.countP_eq_length_filter, List.countP_eq_length_filter] at heq
      have hsub : (transitionsOf hist d1 d0).filter
          (fun t => decide (t.2.1 = r ∧ t.2.2 ∈ all_classes))
          = ((transitionsOf hist d1 d0).filter (fun t => decide (t.2.1 = r))).filter
              (fun t => decide (t.2.2 ∈ all_classes)) := by
        rw [List.filter_filter]
        apply List.filter_congr
        intro x _
        by_cases hA : x.2.1 = r <;> by_cases hB : x.2.2 ∈ all_classes <;>
          simp [hA, hB]
      rw [hsub] at heq
      have hle := List.length_filter_le
        (fun t : ℕ × Classification × Classification => decide (t.2.2 ∈ all_classes))
        ((transitionsOf hist d1 d0).filter (fun t => decide (t.2.1 = r)))
      have hallmem : ∀ x ∈ (transitionsOf hist d1 d0).filter
          (fun t => decide (t.2.1 = r)), decide (x.2.2 ∈ all_classes) = true := by
        apply List.filter_length_eq_length.mp
        exact heq
      have htmem : t ∈ (transitionsOf hist d1 d0).filter
          (fun t => decide (t.2.1 = r)) :=
        List.mem_filter.mpr ⟨ht, by simp [htr]⟩
      exact htout (of_decide_eq_true (hallmem t htmem))
  refine ⟨by simp [calculate_migration_matrix, hsnap], ?_, ?_, ?_⟩
  · rfl
  · intro row hrow
    rcases List.mem_map.mp hrow with ⟨r', _, rfl⟩
    rfl
  · rw [migRow_sum, if_neg (Nat.pos_iff_ne_zero.mp hn)]
    have hdiv : ((transitionsOf hist d1 d0).countP
        (fun t => decide (t.2.1 = r ∧ t.2.2 ∈ all_classes)) : ℚ)
        / ((transitionsOf hist d1 d0).countP (fun t => decide (t.2.1 = r)) : ℚ) < 1 := by
      rw [div_lt_one (by exact_mod_cast hn)]
      exact_mod_cast hmlt
    calc ((transitionsOf hist d1 d0).countP
          (fun t => decide (t.2.1 = r ∧ t.2.2 ∈ all_classes)) : ℚ)
          / ((transitionsOf hist d1 d0).countP (fun t => decide (t.2.1 = r)) : ℚ) * 100
        < 1 * 100 := by
          exact mul_lt_mul_of_pos_right hdiv (by norm_num)
      _ = 100 := by norm_num

/-- Witness for C10 at the concrete out-of-vocabulary series. -/
theorem migration_drops_out_of_vocab_witness :
    snapshotsDesc histW10 = [2, 1]
    ∧ ((all_classes.map
        (fun c => migCell (transitionsOf histW10 1 2) Classification.c1 c)).sum) < 100 :=
  ⟨by decide,
   (migration_drops_out_of_vocab histW10 2 1 [] Classification.c1
     (by decide) (by decide) (by decide)).2.2.2⟩

/-- Witness for C8 at a concrete engine. -/
theorem calculate_all_kris_idempotent_witness :
    (calculate_all_kris_method
        ((calculate_all_kris_method (CreditRiskKRI.init [baseLoan])).2)).1
      = (calculate_all_kris_method (CreditRiskKRI.init [baseLoan])).1 :=
  (calculate_all_kris_idempotent (CreditRiskKRI.init [baseLoan])).1
